import Mathlib

/-
Verification of the document classification and metadata-extraction pipeline
of the nlp-legal-parser repository.

The two source files are embedded shallowly:
  * `DocumentTypeDetector` models src/document_type_detector.py
  * `DetectDocType` models src/detect_doc_type.py
Functions defined identically in both files (slugify, normalize_entity,
build_summary, rename_file) are defined once at top level.

Python strings are modelled as `List Char` (`Str`), so that every operation
is executable by kernel reduction.  External collaborators (spaCy annotation,
dateparser, file contents, os.rename) are modelled as explicit parameters,
collected in an `Env` record where convenient.
-/

/-- Python strings, modelled as lists of characters. -/
abbrev Str := List Char

/-- Models Python `str.lower()` (ASCII case folding, as all rule keywords are ASCII). -/
def pyLower (s : Str) : Str := s.map Char.toLower

/-- Models the Python substring test `sub in s`. -/
def pyContains (s sub : Str) : Bool := decide (sub <:+: s)

/-- Python whitespace class: the characters matched by `str.strip()` and `\s`. -/
def isPySpace (c : Char) : Bool :=
  c == ' ' || c == '\t' || c == '\n' || c == '\r' || c == '\x0b' || c == '\x0c'

/-- Drop matching characters from the right end of a list. -/
def pyStripEnd (p : Char → Bool) (s : Str) : Str := (s.reverse.dropWhile p).reverse

/-- Models Python `str.strip(chars)`: drop matching characters from both ends. -/
def pyStrip (p : Char → Bool) (s : Str) : Str := (pyStripEnd p s).dropWhile p

/-- Models `str.strip()` with no arguments (whitespace stripping). -/
def pyStripStr (s : Str) : Str := pyStrip isPySpace s

/-- Models `re.sub(p+, r, s)`: replace every maximal run of characters
satisfying `p` by the single character `r`. -/
def collapseRuns (p : Char → Bool) (r : Char) : Str → Str
  | [] => []
  | [c] => if p c then [r] else [c]
  | c :: d :: rest =>
    if p c then
      if p d then collapseRuns p r (d :: rest)
      else r :: collapseRuns p r (d :: rest)
    else c :: collapseRuns p r (d :: rest)

/-- The character substitution done by `text.replace("\n", " ")`. -/
def replNl (c : Char) : Char := if c == '\n' then ' ' else c

/-- The strip set of `.strip(",. ")` in normalize_entity. -/
def isCommaDotSpace (c : Char) : Bool := c == ',' || c == '.' || c == ' '

/-- normalize_entity (identical in both source files):
`re.sub(r"\s+", " ", text.strip().replace("\n", " ")).strip(",. ")`. -/
def normalize_entity (s : Str) : Str :=
  pyStrip isCommaDotSpace (collapseRuns isPySpace ' ' ((pyStrip isPySpace s).map replNl))

/-- Models Python `str.split()` with no separator: maximal non-whitespace runs. -/
def pySplitWs (s : Str) : List Str := (s.splitOnP isPySpace).filter (fun t => t ≠ [])

/-- The party heuristic `len(item.split()) >= 2` from build_summary. -/
def partyOk (s : Str) : Bool := decide (2 ≤ (pySplitWs s).length)

/-- Models Python `dict.get(k, d)` on an association list (insertion-ordered dict). -/
def pyGet (m : List (Str × List Str)) (k : Str) (d : List Str) : List Str :=
  match m.find? (fun kv => kv.1 == k) with
  | some kv => kv.2
  | none => d

/-- Models `dict.setdefault(k, []).append(v)` / `defaultdict(list)[k].append(v)`:
append `v` to the entry for `k`, adding the key at the end if absent. -/
def addEntry (m : List (Str × List Str)) (k : Str) (v : Str) : List (Str × List Str) :=
  match m with
  | [] => [(k, [v])]
  | kv :: rest => if kv.1 == k then (kv.1, kv.2 ++ [v]) :: rest else kv :: addEntry rest k v

/-- A calendar date, the result of the external dateparser collaborator
(time-of-day components are irrelevant to the pipeline's output and omitted). -/
structure PyDate where
  year : Nat
  month : Nat
  day : Nat
deriving DecidableEq, Repr

/-- Chronological strict order on dates (Python datetime comparison). -/
def DateLt (a b : PyDate) : Prop :=
  a.year < b.year ∨ (a.year = b.year ∧
    (a.month < b.month ∨ (a.month = b.month ∧ a.day < b.day)))

instance : ∀ a b, Decidable (DateLt a b) := fun a b => by unfold DateLt; exact inferInstance

/-- Models Python `min` on a nonempty sequence `d :: l`: keep the current
minimum, replacing it only when a strictly smaller element appears. -/
def pyMinD (d : PyDate) (l : List PyDate) : PyDate :=
  l.foldl (fun acc x => if DateLt x acc then x else acc) d

/-- The ASCII character of a decimal digit. -/
def digitChar (n : Nat) : Char := Char.ofNat (48 + n)

/-- Two-digit zero-padded decimal rendering (months and days in isoformat). -/
def pad2 (n : Nat) : Str := [digitChar (n / 10 % 10), digitChar (n % 10)]

/-- Four-digit zero-padded decimal rendering (years in isoformat; Python
datetime years are between 1 and 9999). -/
def pad4 (n : Nat) : Str :=
  [digitChar (n / 1000 % 10), digitChar (n / 100 % 10), digitChar (n / 10 % 10),
   digitChar (n % 10)]

/-- Models Python `date.isoformat()`: `YYYY-MM-DD`. -/
def pyIsoformat (d : PyDate) : Str :=
  pad4 d.year ++ ('-' :: pad2 d.month) ++ ('-' :: pad2 d.day)

/-- A labelled entity mention as produced by the spaCy annotator (`ent.label_`, `ent.text`). -/
structure Entity where
  label : Str
  text : Str
deriving DecidableEq, Repr

/-- External collaborators of the pipeline, passed explicitly:
the loaded rule set, the spaCy annotator, dateparser, and file contents
(per extension, plus the two PDF fallback behaviours of analyze_document). -/
structure Env where
  rules : List (Str × List Str)
  annotate : Str → List Entity
  dateparse : Str → Option PyDate
  txtContent : Str
  pdfPages : List (Option Str)
  pdfOpenFails : Bool
  ocrPages : List Str
  ocrImage : Str

/-- Simplified POSIX `os.path.dirname`: everything before the last slash
(empty when there is no slash). -/
def pyDirname (path : Str) : Str :=
  if ('/') ∈ path then ((path.reverse.dropWhile (fun c => c ≠ '/')).drop 1).reverse else []

/-- Simplified POSIX `os.path.basename`: everything after the last slash. -/
def pyBasename (path : Str) : Str := (path.reverse.takeWhile (fun c => c ≠ '/')).reverse

/-- Simplified POSIX `os.path.join` for a relative second component. -/
def pyJoin (dir name : Str) : Str := if dir = [] then name else dir ++ ('/' :: name)

/-- The extension component of `os.path.splitext` (and of `pathlib.Path.suffix`):
from the last dot of the basename, where leading dots do not begin an extension. -/
def pySplitextExt (path : Str) : Str :=
  let core := (pyBasename path).dropWhile (fun c => c == '.')
  if ('.') ∈ core then '.' :: (core.reverse.takeWhile (fun c => c ≠ '.')).reverse else []

/-- The lower-cased extension, as computed at the top of both extraction routines. -/
def extLower (path : Str) : Str := pyLower (pySplitextExt path)

/-- Models `str.replace(a, b)` for a single-character pattern (the only use in
the sources is `.replace(" ", "_")`). -/
def pyReplaceChar (a b : Char) (s : Str) : Str := s.map (fun c => if c == a then b else c)

/-- Python `\w` word characters (ASCII letters, digits, underscore). -/
def isWordChar (c : Char) : Bool := c.isAlphanum || c == '_'

/-- slugify (identical in both source files):
`re.sub(r"[^\w]+", "_", text.strip()).strip("_")`. -/
def slugify (text : Str) : Str :=
  pyStrip (fun c => c == '_') (collapseRuns (fun c => !isWordChar c) '_' (pyStrip isPySpace text))

/-- Well-formedness of a collapsed string with respect to a character class
`p` and replacement `r`: every character matched by `p` is `r`, and no two
adjacent characters both match `p`.  This is the shape `collapseRuns`
produces and on which it acts as the identity. -/
def SpacedOk (p : Char → Bool) (r : Char) (l : Str) : Prop :=
  (∀ c ∈ l, p c = true → c = r) ∧
  List.Chain' (fun a b => ¬(p a = true ∧ p b = true)) l

/-- A rule entry's exact-match condition: ALL keywords occur (lower-cased)
as substrings of the lower-cased text. -/
def fullMatch (lowered : Str) (kws : List Str) : Bool :=
  kws.all (fun k => pyContains lowered (pyLower k))

/-- A rule entry's partial-match condition: ANY keyword occurs. -/
def someMatch (lowered : Str) (kws : List Str) : Bool :=
  kws.any (fun k => pyContains lowered (pyLower k))

namespace DocumentTypeDetector

/-- load_rules: the YAML configuration source is external; `none` models an
absent rules file, for which load_rules returns the empty dict. -/
def load_rules (cfg : Option (List (Str × List Str))) : List (Str × List Str) :=
  match cfg with
  | some r => r
  | none => []

/-- The scanning loop of document_type_detector: `acc` is the detected type
so far ("Unknown" initially, overwritten by every partial match); a full
match returns immediately. -/
def detectorLoop (lowered acc : Str) : List (Str × List Str) → Str
  | [] => acc
  | (t, kws) :: rest =>
    if fullMatch lowered kws then t
    else if someMatch lowered kws then detectorLoop lowered t rest
    else detectorLoop lowered acc rest

/-- document_type_detector of src/document_type_detector.py, with the
module-level `document_type_rules` passed explicitly. -/
def document_type_detector (rules : List (Str × List Str)) (text : Str) : Str :=
  detectorLoop (pyLower text) ("Unknown").data rules

end DocumentTypeDetector

/-- The type of the last entry of a rule list, or a default for the empty
list; used to phrase the "last partial match wins" selection policy. -/
def lastTypeOr (d : Str) : List (Str × List Str) → Str
  | [] => d
  | r :: rest => lastTypeOr r.1 rest

/-- The classifier contract exactly as the specification words it:
the first entry all of whose keywords occur wins; otherwise the last entry
with at least one keyword present; otherwise "Unknown". -/
def classifierSpec (rules : List (Str × List Str)) (text : Str) : Str :=
  match rules.find? (fun r => fullMatch (pyLower text) r.2) with
  | some r => r.1
  | none => lastTypeOr ("Unknown").data (rules.filter (fun r => someMatch (pyLower text) r.2))

namespace DetectDocType

/-- document_type_detector of src/detect_doc_type.py: the hardcoded
if/elif keyword chain (no rule set is consulted). -/
def document_type_detector (text : Str) : Str :=
  let lowered := pyLower text
  if pyContains lowered ("motion to dismiss").data then ("Motion to Dismiss").data
  else if pyContains lowered ("motion").data then ("Motion").data
  else if pyContains lowered ("affidavit").data then ("Affidavit").data
  else if pyContains lowered ("complaint").data then ("Complaint").data
  else if pyContains lowered ("notice of hearing").data then ("Notice of Hearing").data
  else ("Unknown").data

end DetectDocType

/-- The Summary record returned by build_summary. -/
structure Summary where
  document_type : Str
  parties_involved : List Str
  date_filed : Option Str
deriving DecidableEq, Repr

/-- The inner loop of the party scan in build_summary: append qualifying
items to the accumulator, breaking as soon as two parties are collected
(the length check runs after every item, appended or not). -/
def partyLoop (acc : List Str) : List Str → List Str
  | [] => acc
  | item :: rest =>
    if partyOk item then
      if (acc ++ [item]).length = 2 then acc ++ [item] else partyLoop (acc ++ [item]) rest
    else
      if acc.length = 2 then acc else partyLoop acc rest

/-- The party scan of build_summary: label priority `["PERSON", "ORG"]`,
breaking out of the outer loop at two parties. -/
def buildParties (entities : List (Str × List Str)) : List Str :=
  let p1 := partyLoop [] (pyGet entities ("PERSON").data [])
  if p1.length = 2 then p1 else partyLoop p1 (pyGet entities ("ORG").data [])

/-- The date-candidate loop of build_summary: parse each raw DATE string and
keep parses with year >= 1900. -/
def validDates (dateparse : Str → Option PyDate) (raws : List Str) : List PyDate :=
  raws.filterMap (fun raw =>
    match dateparse raw with
    | some p => if 1900 ≤ p.year then some p else none
    | none => none)

/-- The date resolution of build_summary: ISO rendering of the minimum
surviving candidate, `none` when no candidate survives. -/
def summaryDateFiled (dateparse : Str → Option PyDate) (raws : List Str) : Option Str :=
  match validDates dateparse raws with
  | [] => none
  | d :: rest => some (pyIsoformat (pyMinD d rest))

/-- build_summary (identical in both source files), with the external
dateparser passed explicitly.  The `filename` argument is accepted and
unused, as in the source. -/
def build_summary (dateparse : Str → Option PyDate) (entities : List (Str × List Str))
    (filename : Str) (doc_type_from_nlp : Str) : Summary :=
  ⟨doc_type_from_nlp, buildParties entities,
    summaryDateFiled dateparse (pyGet entities ("DATE").data [])⟩

/-- The Python exceptions rename_file can raise before attempting the rename. -/
inductive PyErr where
  | indexError
deriving DecidableEq, Repr

/-- A summary as a Python dict seen by rename_file: each field is `none`
when the key is absent.  `date_filed` is doubly optional: the key may be
absent, or present holding `None`. -/
structure PySummary where
  parties_involved : Option (List Str)
  document_type : Option Str
  date_filed : Option (Option Str)
deriving DecidableEq, Repr

deriving instance DecidableEq for Except

/-- Outcome of rename_file: the returned path (or a raised exception), and
whether `os.rename` was attempted at all. -/
structure RenameResult where
  result : Except PyErr Str
  attempted : Bool
deriving DecidableEq

/-- The new filename composed by rename_file:
`f"{client} - {doc_type} - {practice} - {date_str}{ext}"` with
`practice = "Legal"`.  Taking `[0]` of a present-but-empty parties list
raises IndexError; an absent `date_filed` key defaults to "NoDate" while a
present `None` is rendered as "None" by the f-string. -/
def rename_newname (file_path : Str) (s : PySummary) : Except PyErr Str :=
  match s.parties_involved.getD [("Unknown").data] with
  | [] => Except.error PyErr.indexError
  | first :: _ =>
    let client := pyReplaceChar ' ' '_' first
    let doc_type := slugify (s.document_type.getD ("Doc").data)
    let date_str : Str :=
      match s.date_filed with
      | none => ("NoDate").data
      | some none => ("None").data
      | some (some d) => d
    Except.ok (client ++ (" - ").data ++ doc_type ++ (" - ").data ++ ("Legal").data
      ++ (" - ").data ++ date_str ++ pySplitextExt file_path)

/-- rename_file (identical in both source files): compose the target path in
the original directory and attempt `os.rename`; a failing rename is caught
and the original path returned. -/
def rename_file (osRename : Str → Str → Except Str Unit) (file_path : Str)
    (s : PySummary) : RenameResult :=
  match rename_newname file_path s with
  | Except.error e => ⟨Except.error e, false⟩
  | Except.ok name =>
    let new_path := pyJoin (pyDirname file_path) name
    match osRename file_path new_path with
    | Except.ok _ => ⟨Except.ok new_path, true⟩
    | Except.error _ => ⟨Except.ok file_path, true⟩

/-- Models `"\n".join(l)`. -/
def joinNl : List Str → Str
  | [] => []
  | [s] => s
  | s :: rest => s ++ ('\n' :: joinNl rest)

namespace DocumentTypeDetector

/-- extract_text of src/document_type_detector.py: txt is read whole, PDF
pages are joined keeping only truthy page texts, images go through OCR, and
any other extension raises ValueError. -/
def extract_text (env : Env) (path : Str) : Except Str Str :=
  let ext := extLower path
  if ext = (".txt").data then Except.ok env.txtContent
  else if ext = (".pdf").data then
    Except.ok (joinNl ((env.pdfPages.filterMap id).filter (fun s => s ≠ [])))
  else if ext = (".png").data ∨ ext = (".jpg").data ∨ ext = (".jpeg").data then
    Except.ok env.ocrImage
  else Except.error ("Unsupported file type. Use .txt, .pdf, or image").data

/-- The summary dict built inside analyze_document: the NLP-tagged type, the
raw text of the FIRST DATE entity (no parsing), and the entity dict. -/
structure AnalyzeSummary where
  document_type : Str
  date_filed : Option Str
  entities : List (Str × List Str)
deriving DecidableEq, Repr

/-- The return value of analyze_document. -/
structure AnalyzeResult where
  text : Str
  summary : AnalyzeSummary
  entities : List (Str × List Str)
deriving DecidableEq, Repr

/-- The entity grouping of analyze_document:
`entity_summary.setdefault(label, []).append(ent.text.strip())`
(strip only: no newline collapse, no dedup, no sort, empties kept). -/
def analyzeEntitySummary (ents : List Entity) : List (Str × List Str) :=
  ents.foldl (fun m e => addEntry m e.label (pyStripStr e.text)) []

/-- analyze_document of src/document_type_detector.py.  Note its own
extension dispatch: a PDF open failure falls back to page-image OCR, PDF
page texts are joined with `or ""`, and an unrecognized extension leaves
`text = ""` and continues. -/
def analyze_document (env : Env) (file_path : Str) : AnalyzeResult :=
  let ext := extLower file_path
  let text :=
    if ext = (".pdf").data then
      if env.pdfOpenFails then joinNl env.ocrPages
      else joinNl (env.pdfPages.map (fun p => p.getD []))
    else if ext = (".png").data ∨ ext = (".jpg").data ∨ ext = (".jpeg").data then
      env.ocrImage
    else if ext = (".txt").data then env.txtContent
    else []
  let ents := env.annotate text
  let entity_summary := analyzeEntitySummary ents
  ⟨text,
   ⟨document_type_detector env.rules text,
    (ents.find? (fun e => e.label == ("DATE").data)).map (fun e => e.text),
    entity_summary⟩,
   entity_summary⟩

/-- The JSON object persisted by process_document. -/
structure PersistRecord where
  filename : Str
  summary : AnalyzeSummary
  entities : List (Str × List Str)
deriving DecidableEq, Repr

/-- The observable outcome of process_document: the persisted record (written
before any rename) and the rename outcome when renaming was requested. -/
structure ProcOutput where
  persisted : PersistRecord
  renamed : Option RenameResult

/-- The analyze_document summary viewed as the dict handed to rename_file:
it has `document_type` and `date_filed` keys but NO `parties_involved` key. -/
def analyzeSummaryToPy (s : AnalyzeSummary) : PySummary :=
  ⟨none, some s.document_type, some s.date_filed⟩

/-- process_document of src/document_type_detector.py: analyze, persist the
JSON record, then optionally rename. -/
def process_document (env : Env) (osRename : Str → Str → Except Str Unit)
    (file_path : Str) (rename : Bool) : ProcOutput :=
  let r := analyze_document env file_path
  ⟨⟨pyBasename file_path, r.summary, r.entities⟩,
   if rename then some (rename_file osRename file_path (analyzeSummaryToPy r.summary))
   else none⟩

end DocumentTypeDetector

/-- Python `sorted(set(v))` on strings: the lexicographically sorted list of
the distinct elements. -/
def pySortedDedup (v : List Str) : List Str := List.insertionSort (· ≤ ·) v.dedup

namespace DetectDocType

/-- extract_text of src/detect_doc_type.py: txt and PDF only; any other
extension raises ValueError. -/
def extract_text (env : Env) (path : Str) : Except Str Str :=
  let ext := extLower path
  if ext = (".txt").data then Except.ok env.txtContent
  else if ext = (".pdf").data then
    Except.ok (joinNl ((env.pdfPages.filterMap id).filter (fun s => s ≠ [])))
  else Except.error ("Unsupported file type. Use .txt or .pdf").data

/-- One step of the grouping loop of process_document: clean the mention and
append it under its label, dropping mentions that normalize to the empty
string (`if clean: entity_summary[ent.label_].append(clean)`). -/
def detectGroupStep (m : List (Str × List Str)) (e : Entity) : List (Str × List Str) :=
  if normalize_entity e.text ≠ [] then addEntry m e.label (normalize_entity e.text) else m

/-- The grouping loop of process_document over all entity mentions. -/
def detectGroup (ents : List Entity) : List (Str × List Str) :=
  ents.foldl detectGroupStep []

/-- The normalized entity set of process_document:
`{k: sorted(set(v)) for k, v in entity_summary.items()}`. -/
def detectEntitySummary (ents : List Entity) : List (Str × List Str) :=
  (detectGroup ents).map (fun kv => (kv.1, pySortedDedup kv.2))

/-- The JSON object persisted by process_document of src/detect_doc_type.py. -/
structure DetectRecord where
  filename : Str
  summary : Summary
  entities : List (Str × List Str)
deriving DecidableEq, Repr

/-- The observable outcome of a successful run of process_document. -/
structure DetectOutput where
  persisted : DetectRecord
  renamed : Option RenameResult

/-- A build_summary result viewed as the dict handed to rename_file: all
three keys are present (`date_filed` possibly holding `None`). -/
def summaryToPy (s : Summary) : PySummary :=
  ⟨some s.parties_involved, some s.document_type, some s.date_filed⟩

/-- process_document of src/detect_doc_type.py: extract (propagating its
error), annotate, normalize entities, classify, summarize, persist, then
optionally rename. -/
def process_document (env : Env) (osRename : Str → Str → Except Str Unit)
    (file_path : Str) (rename : Bool) : Except Str DetectOutput :=
  match extract_text env file_path with
  | Except.error e => Except.error e
  | Except.ok text =>
    let ents := env.annotate text
    let entity_summary := detectEntitySummary ents
    let summary := build_summary env.dateparse entity_summary (pyBasename file_path)
      (document_type_detector text)
    Except.ok ⟨⟨pyBasename file_path, summary, entity_summary⟩,
      if rename then some (rename_file osRename file_path (summaryToPy summary)) else none⟩

end DetectDocType

/-- The Entity Normalizer as a whole, per label: clean each raw mention,
drop empties, deduplicate, and sort (the per-label pipeline of
process_document in src/detect_doc_type.py). -/
def normalizeLabelList (raws : List Str) : List Str :=
  pySortedDedup ((raws.map normalize_entity).filter (fun s => s ≠ []))

/-- The NormalizedEntitySet invariant of the specification: every label maps
to a lexicographically sorted list of distinct cleaned (normalization
fixed-point) strings with no empty entry. -/
def NormalizedInv (m : List (Str × List Str)) : Prop :=
  ∀ kv ∈ m, List.Sorted (· ≤ ·) kv.2 ∧ kv.2.Nodup ∧ ([] : Str) ∉ kv.2 ∧
    ∀ s ∈ kv.2, normalize_entity s = s

/-- A concrete dateparser stub used in the instance theorems for the date
resolution claim. -/
def c2Parse : Str → Option PyDate := fun s =>
  if s = ("June 1, 2030").data then some ⟨2030, 6, 1⟩
  else if s = ("June 1, 1999").data then some ⟨1999, 6, 1⟩
  else if s = ("Case 1850").data then some ⟨1850, 1, 1⟩
  else none

/-- A concrete environment whose annotator reports two DATE mentions, the
later date first. -/
def c2Env : Env :=
  ⟨[],
   fun _ => [⟨("DATE").data, ("June 1, 2030").data⟩, ⟨("DATE").data, ("June 1, 1999").data⟩],
   c2Parse, ("filed June 1, 2030 and June 1, 1999").data, [], false, [], []⟩

/-- A concrete environment whose annotator reports unsorted duplicate PERSON
mentions. -/
def c7Env : Env :=
  ⟨[],
   fun _ => [⟨("PERSON").data, ("b").data⟩, ⟨("PERSON").data, ("a").data⟩,
     ⟨("PERSON").data, ("b").data⟩],
   fun _ => none, ("some text").data, [], false, [], []⟩

/-- A concrete environment with benign collaborators, used for the
unsupported-extension instances. -/
def c9Env : Env :=
  ⟨[], fun _ => [], fun _ => none, ("hello").data, [], false, [], []⟩

/-
Theorems.  Helper lemmas come first, then one theorem per claim (with
witnesses and counterexamples where required).
-/

theorem detectorLoop_spec (lowered : Str) (rules : List (Str × List Str)) (acc : Str) :
    DocumentTypeDetector.detectorLoop lowered acc rules =
      match rules.find? (fun r => fullMatch lowered r.2) with
      | some r => r.1
      | none => lastTypeOr acc (rules.filter (fun r => someMatch lowered r.2)) := by
  induction rules generalizing acc with
  | nil => rfl
  | cons hd rest ih =>
    obtain ⟨t, kws⟩ := hd
    by_cases hf : fullMatch lowered kws
    · simp [DocumentTypeDetector.detectorLoop, List.find?_cons, hf]
    · by_cases hs : someMatch lowered kws
      · simp [DocumentTypeDetector.detectorLoop, List.find?_cons, hf, hs,
          List.filter_cons, ih, lastTypeOr]
      · simp [DocumentTypeDetector.detectorLoop, List.find?_cons, hf, hs,
          List.filter_cons, ih]

/-- C1: for every RuleSet and every text, document_type_detector returns the
type of the first entry all of whose lower-cased keywords occur as substrings
of the lower-cased text (stopping the scan there); if no entry has all its
keywords present, the type of the last entry with at least one keyword
present; and "Unknown" when no entry has any keyword present — that is, it
coincides with classifierSpec, the direct transcription of this policy. -/
theorem c1_classifier_matches_spec (rules : List (Str × List Str)) (text : Str) :
    DocumentTypeDetector.document_type_detector rules text = classifierSpec rules text :=
  detectorLoop_spec (pyLower text) rules ("Unknown").data

theorem pyContains_mono (s a b : Str) (hab : a <:+: b) (h : pyContains s b = true) :
    pyContains s a = true := by
  unfold pyContains at *
  exact decide_eq_true (List.IsInfix.trans hab (of_decide_eq_true h))

/-- C3 counterexample: with the rule configuration source absent, load_rules
yields the empty RuleSet and the rule-driven classifier returns "Unknown"
even for a text containing the trigger phrase "affidavit" — there is no
fallback to the built-in default list, contradicting the claim. -/
theorem c3_counterexample :
    DocumentTypeDetector.load_rules none = [] ∧
    DocumentTypeDetector.document_type_detector (DocumentTypeDetector.load_rules none)
      ("this affidavit of service").data = ("Unknown").data ∧
    ("Unknown").data ≠ ("Affidavit").data :=
  ⟨rfl, by decide, by decide⟩

/-- C3 (amended): when the configuration source is absent, load_rules returns
the empty RuleSet and the rule-driven classifier then classifies EVERY text
as "Unknown" (no fallback).  The built-in ordered default list exists only as
the hardcoded chain of detect_doc_type.py, which — without consulting any
RuleSet — classifies texts containing the trigger phrases to the
corresponding types, earlier phrases in the chain taking priority. -/
theorem c3_amended (text : Str) :
    DocumentTypeDetector.load_rules none = [] ∧
    DocumentTypeDetector.document_type_detector (DocumentTypeDetector.load_rules none) text
      = ("Unknown").data ∧
    (pyContains (pyLower text) ("motion to dismiss").data = true →
      DetectDocType.document_type_detector text = ("Motion to Dismiss").data) ∧
    (pyContains (pyLower text) ("motion to dismiss").data = false →
      pyContains (pyLower text) ("motion").data = true →
      DetectDocType.document_type_detector text = ("Motion").data) ∧
    (pyContains (pyLower text) ("motion").data = false →
      pyContains (pyLower text) ("affidavit").data = true →
      DetectDocType.document_type_detector text = ("Affidavit").data) ∧
    (pyContains (pyLower text) ("motion").data = false →
      pyContains (pyLower text) ("affidavit").data = false →
      pyContains (pyLower text) ("complaint").data = true →
      DetectDocType.document_type_detector text = ("Complaint").data) ∧
    (pyContains (pyLower text) ("motion").data = false →
      pyContains (pyLower text) ("affidavit").data = false →
      pyContains (pyLower text) ("complaint").data = false →
      pyContains (pyLower text) ("notice of hearing").data = true →
      DetectDocType.document_type_detector text = ("Notice of Hearing").data) := by
  have hmono : ∀ hm : pyContains (pyLower text) ("motion").data = false,
      pyContains (pyLower text) ("motion to dismiss").data = false := by
    intro hm
    cases hx : pyContains (pyLower text) ("motion to dismiss").data with
    | false => rfl
    | true =>
      exact absurd
        (pyContains_mono (pyLower text) ("motion").data ("motion to dismiss").data
          (by decide) hx)
        (by simp [hm])
  refine ⟨rfl, rfl, ?_, ?_, ?_, ?_, ?_⟩
  · intro h1
    simp [DetectDocType.document_type_detector, h1]
  · intro h1 h2
    simp [DetectDocType.document_type_detector, h1, h2]
  · intro h2 h3
    simp [DetectDocType.document_type_detector, hmono h2, h2, h3]
  · intro h2 h3 h4
    simp [DetectDocType.document_type_detector, hmono h2, h2, h3, h4]
  · intro h2 h3 h4 h5
    simp [DetectDocType.document_type_detector, hmono h2, h2, h3, h4, h5]

/-- Witness for c3_amended at a concrete text containing "affidavit". -/
theorem c3_witness :
    DetectDocType.document_type_detector ("see the affidavit").data = ("Affidavit").data :=
  (c3_amended ("see the affidavit").data).2.2.2.2.1 (by decide) (by decide)

theorem partyLoop_take_two (l : List Str) : ∀ acc : List Str, acc.length ≤ 1 →
    partyLoop acc l = (acc ++ l.filter partyOk).take 2 := by
  induction l with
  | nil =>
    intro acc h
    rw [partyLoop, List.filter_nil, List.append_nil, List.take_of_length_le (by omega)]
  | cons item rest ih =>
    intro acc h
    rw [partyLoop]
    cases hq : partyOk item with
    | true =>
      rw [List.filter_cons_of_pos hq, if_pos rfl]
      conv_rhs => rw [List.append_cons]
      by_cases h2 : (acc ++ [item]).length = 2
      · rw [if_pos h2, List.take_left' h2]
      · rw [if_neg h2]
        refine ih _ ?_
        simp only [List.length_append, List.length_cons, List.length_nil] at h2 ⊢
        omega
    | false =>
      rw [List.filter_cons_of_neg (by simp [hq]), if_neg (by simp)]
      rw [if_neg (by omega)]
      exact ih acc h

/-- C4: for every entity set (and any dateparser, filename and prior document
type), build_summary's parties_involved is the 2-truncation of the
concatenation of the PERSON list followed by the ORG list filtered to entries
with at least two whitespace-separated tokens; in particular its length is at
most 2 and fewer qualifying entries simply give a shorter list. -/
theorem c4_parties_take_two (dateparse : Str → Option PyDate)
    (entities : List (Str × List Str)) (filename doc_type : Str) :
    (build_summary dateparse entities filename doc_type).parties_involved
      = ((pyGet entities ("PERSON").data [] ++ pyGet entities ("ORG").data []).filter
          partyOk).take 2 ∧
    (build_summary dateparse entities filename doc_type).parties_involved.length ≤ 2 := by
  have hmain : buildParties entities
      = ((pyGet entities ("PERSON").data [] ++ pyGet entities ("ORG").data []).filter
          partyOk).take 2 := by
    unfold buildParties
    rw [partyLoop_take_two _ [] (by simp), List.nil_append, List.filter_append]
    by_cases h2 :
        (((pyGet entities ("PERSON").data []).filter partyOk).take 2).length = 2
    · have hge : 2 ≤ ((pyGet entities ("PERSON").data []).filter partyOk).length := by
        rw [List.length_take] at h2
        omega
      rw [if_pos h2, List.take_append_eq_append_take]
      have hz : 2 - ((pyGet entities ("PERSON").data []).filter partyOk).length = 0 := by
        omega
      rw [hz, List.take_zero, List.append_nil]
    · have hle : ((pyGet entities ("PERSON").data []).filter partyOk).length ≤ 1 := by
        rw [List.length_take] at h2
        omega
      have hfull : ((pyGet entities ("PERSON").data []).filter partyOk).length ≤ 2 := by
        omega
      rw [if_neg h2, partyLoop_take_two _ _ (by rw [List.length_take]; omega),
        List.take_of_length_le hfull]
  exact ⟨hmain, by rw [show (build_summary dateparse entities filename doc_type).parties_involved
    = buildParties entities from rfl, hmain, List.length_take]; omega⟩

theorem dateLt_trans (a b c : PyDate) (h1 : DateLt a b) (h2 : DateLt b c) : DateLt a c := by
  unfold DateLt at *
  omega

theorem dateLt_irrefl (a : PyDate) : ¬ DateLt a a := by
  unfold DateLt
  omega

theorem dateNotLt_lt_trans (d x r : PyDate) (h1 : ¬ DateLt x d) (h2 : DateLt x r) :
    DateLt d r := by
  unfold DateLt at *
  omega

theorem pyMinD_spec (l : List PyDate) : ∀ d : PyDate,
    pyMinD d l ∈ d :: l ∧ ∀ x ∈ d :: l, ¬ DateLt x (pyMinD d l) := by
  induction l with
  | nil =>
    intro d
    refine ⟨by simp [pyMinD], ?_⟩
    intro x hx
    simp only [pyMinD, List.foldl_nil]
    simp only [List.mem_singleton] at hx
    subst hx
    exact dateLt_irrefl x
  | cons y rest ih =>
    intro d
    by_cases hy : DateLt y d
    · have hstep : pyMinD d (y :: rest) = pyMinD y rest := by
        simp only [pyMinD, List.foldl_cons, if_pos hy]
      obtain ⟨ihmem, ihmin⟩ := ih y
      rw [hstep]
      constructor
      · rcases List.mem_cons.mp ihmem with h | h
        · simp [h]
        · simp [h]
      · intro x hx
        rcases List.mem_cons.mp hx with hxd | hx2
        · subst hxd
          intro hcon
          exact ihmin y (List.mem_cons_self y rest) (dateLt_trans y x _ hy hcon)
        · exact ihmin x hx2
    · have hstep : pyMinD d (y :: rest) = pyMinD d rest := by
        simp only [pyMinD, List.foldl_cons, if_neg hy]
      obtain ⟨ihmem, ihmin⟩ := ih d
      rw [hstep]
      constructor
      · rcases List.mem_cons.mp ihmem with h | h
        · simp [h]
        · simp [h]
      · intro x hx
        rcases List.mem_cons.mp hx with hxd | hx2
        · subst hxd
          exact ihmin x (List.mem_cons_self x rest)
        · rcases List.mem_cons.mp hx2 with hxy | hxr
          · subst hxy
            intro hcon
            exact ihmin d (List.mem_cons_self d rest) (dateNotLt_lt_trans d x _ hy hcon)
          · exact ihmin x (List.mem_cons_of_mem d hxr)

/-- C2 (amended): the date resolution of build_summary satisfies the claimed
contract — date_filed is null exactly when no DATE entry parses to a year at
least 1900; otherwise it is the ISO-8601 rendering of a surviving candidate
that no other candidate is chronologically earlier than; and an entry that
fails to parse or parses to a pre-1900 year never influences the result.
(As stated over every processed document the claim fails: the summary
persisted by src/document_type_detector.py bypasses build_summary, see the
counterexample.) -/
theorem c2_amended (dateparse : Str → Option PyDate) (entities : List (Str × List Str))
    (filename doc_type : Str) :
    ((build_summary dateparse entities filename doc_type).date_filed = none ↔
      validDates dateparse (pyGet entities ("DATE").data []) = []) ∧
    (∀ s, (build_summary dateparse entities filename doc_type).date_filed = some s →
      ∃ d, d ∈ validDates dateparse (pyGet entities ("DATE").data []) ∧ s = pyIsoformat d ∧
        ∀ e ∈ validDates dateparse (pyGet entities ("DATE").data []), ¬ DateLt e d) ∧
    (∀ pre post bad, (∀ p, dateparse bad = some p → p.year < 1900) →
      summaryDateFiled dateparse (pre ++ bad :: post)
        = summaryDateFiled dateparse (pre ++ post)) := by
  have hdf : (build_summary dateparse entities filename doc_type).date_filed
      = summaryDateFiled dateparse (pyGet entities ("DATE").data []) := rfl
  refine ⟨?_, ?_, ?_⟩
  · rw [hdf]
    unfold summaryDateFiled
    cases h : validDates dateparse (pyGet entities ("DATE").data []) <;> simp [h]
  · intro s hs
    rw [hdf] at hs
    unfold summaryDateFiled at hs
    cases h : validDates dateparse (pyGet entities ("DATE").data []) with
    | nil => rw [h] at hs; exact absurd hs (by simp)
    | cons d rest =>
      rw [h] at hs
      obtain ⟨hmem, hmin⟩ := pyMinD_spec rest d
      have hs2 : pyIsoformat (pyMinD d rest) = s := Option.some.inj hs
      exact ⟨pyMinD d rest, hmem, hs2.symm, fun e he => hmin e he⟩
  · intro pre post bad hbad
    unfold summaryDateFiled validDates
    rw [List.filterMap_append, List.filterMap_append, List.filterMap_cons]
    have hnone : (match dateparse bad with
        | some p => if 1900 ≤ p.year then some p else none
        | none => none) = (none : Option PyDate) := by
      cases hb : dateparse bad with
      | none => rfl
      | some p =>
        have hy := hbad p hb
        have hn : ¬ 1900 ≤ p.year := by omega
        simp only [hn, if_false, ite_false]
    rw [hnone]

/-- Witness for c2_amended: a pre-1900 parse in the middle of the DATE list
does not change the resolved date, at concrete inputs. -/
theorem c2_witness :
    summaryDateFiled c2Parse
        ([("June 1, 2030").data] ++ ("Case 1850").data :: [("June 1, 1999").data])
      = summaryDateFiled c2Parse ([("June 1, 2030").data] ++ [("June 1, 1999").data]) :=
  (c2_amended c2Parse [] [] []).2.2 [("June 1, 2030").data] [("June 1, 1999").data]
    (("Case 1850").data)
    (by
      intro p hp
      have heval : c2Parse ("Case 1850").data = some ⟨1850, 1, 1⟩ := by decide
      rw [heval] at hp
      have hpe := Option.some.inj hp
      rw [← hpe]
      decide)

/-- C2 counterexample: for the document processed by
src/document_type_detector.py, the persisted summary's date_filed is the raw
text of the first DATE entity ("June 1, 2030"), not the ISO-8601 rendering
of the minimum valid parsed candidate ("1999-06-01"). -/
theorem c2_counterexample :
    (DocumentTypeDetector.analyze_document c2Env ("case.txt").data).summary.date_filed
      = some (("June 1, 2030").data) ∧
    summaryDateFiled c2Parse
        (pyGet (DocumentTypeDetector.analyze_document c2Env ("case.txt").data).entities
          ("DATE").data [])
      = some (("1999-06-01").data) ∧
    ¬ (some (("June 1, 2030").data) = some (("1999-06-01").data)) :=
  ⟨by decide, by decide, by decide⟩

theorem rename_newname_empty (path : Str) (s : PySummary)
    (h : s.parties_involved = some []) :
    rename_newname path s = Except.error PyErr.indexError := by
  unfold rename_newname
  rw [h]
  rfl

/-- C10: when the parties_involved key is present and maps to the empty list,
rename_file raises IndexError, with no rename attempted, whatever osRename
would do; the "Unknown" client default applies only when the key is entirely
absent, in which case the composed filename starts from the "Unknown"
sentinel. -/
theorem c10_empty_parties_raises (osRename : Str → Str → Except Str Unit)
    (path : Str) (s : PySummary) :
    (s.parties_involved = some [] →
      rename_file osRename path s = ⟨Except.error PyErr.indexError, false⟩) ∧
    (s.parties_involved = none →
      rename_newname path s
        = Except.ok (("Unknown").data ++ (" - ").data
            ++ slugify (s.document_type.getD ("Doc").data) ++ (" - ").data ++ ("Legal").data
            ++ (" - ").data
            ++ (match s.date_filed with
                | none => ("NoDate").data
                | some none => ("None").data
                | some (some d) => d)
            ++ pySplitextExt path)) := by
  constructor
  · intro h
    unfold rename_file
    rw [rename_newname_empty path s h]
  · intro h
    unfold rename_newname
    rw [h]
    rfl

/-- Witness for c10_empty_parties_raises at concrete inputs. -/
theorem c10_witness :
    rename_file (fun _ _ => Except.ok ()) ("case1.pdf").data
      ⟨some [], some ("Motion").data, none⟩
      = ⟨Except.error PyErr.indexError, false⟩ :=
  (c10_empty_parties_raises (fun _ _ => Except.ok ()) ("case1.pdf").data
    ⟨some [], some ("Motion").data, none⟩).1 rfl

/-- C5 counterexample: rename_file DOES throw (IndexError) when
parties_involved is present and empty, and a present null date_filed is
rendered "None" rather than replaced by "NoDate" — both contradicting the
claimed substitutions. -/
theorem c5_counterexample :
    rename_file (fun _ _ => Except.ok ()) ("case1.pdf").data ⟨some [], none, none⟩
      = ⟨Except.error PyErr.indexError, false⟩ ∧
    rename_file (fun _ _ => Except.ok ()) ("case1.pdf").data
        ⟨some [("Jane Doe").data], none, some none⟩
      = ⟨Except.ok ("Jane_Doe - Doc - Legal - None.pdf").data, true⟩ :=
  ⟨by decide, by decide⟩

/-- C5 (amended): rename_file never throws when the keys are entirely ABSENT,
substituting "Unknown", "Doc" and "NoDate" and composing
`{client} - {doc_type} - Legal - {date_str}{ext}` placed in the original
file's directory; but a PRESENT empty parties_involved raises IndexError
before any rename, and a PRESENT null date_filed is rendered "None". -/
theorem c5_amended (osRename : Str → Str → Except Str Unit) (path : Str) (s : PySummary) :
    (s.parties_involved = none → s.document_type = none → s.date_filed = none →
      rename_newname path s
        = Except.ok (("Unknown - Doc - Legal - NoDate").data ++ pySplitextExt path)) ∧
    (∀ name, rename_newname path s = Except.ok name →
      (rename_file osRename path s).result = Except.ok (pyJoin (pyDirname path) name) ∨
      (rename_file osRename path s).result = Except.ok path) ∧
    (s.parties_involved = some [] →
      rename_file osRename path s = ⟨Except.error PyErr.indexError, false⟩) ∧
    (s.parties_involved = none → s.document_type = none → s.date_filed = some none →
      rename_newname path s
        = Except.ok (("Unknown - Doc - Legal - None").data ++ pySplitextExt path)) := by
  refine ⟨?_, ?_, ?_, ?_⟩
  · intro h1 h2 h3
    unfold rename_newname
    rw [h1, h2, h3]
    rfl
  · intro name h
    have h1 : rename_file osRename path s =
        match osRename path (pyJoin (pyDirname path) name) with
        | Except.ok _ => ⟨Except.ok (pyJoin (pyDirname path) name), true⟩
        | Except.error _ => ⟨Except.ok path, true⟩ := by
      unfold rename_file
      rw [h]
    rw [h1]
    cases osRename path (pyJoin (pyDirname path) name) with
    | ok u => exact Or.inl rfl
    | error e => exact Or.inr rfl
  · intro h
    unfold rename_file
    rw [rename_newname_empty path s h]
  · intro h1 h2 h3
    unfold rename_newname
    rw [h1, h2, h3]
    rfl

/-- Witness for c5_amended: the all-keys-absent summary at concrete inputs. -/
theorem c5_witness :
    rename_newname ("case1.pdf").data ⟨none, none, none⟩
      = Except.ok (("Unknown - Doc - Legal - NoDate").data
          ++ pySplitextExt ("case1.pdf").data) :=
  (c5_amended (fun _ _ => Except.ok ()) ("case1.pdf").data ⟨none, none, none⟩).1 rfl rfl rfl

/-- C6: if the underlying rename operation fails for any reason, rename_file
catches the error and returns the original path unchanged (for every summary
that reaches the rename, i.e. whose parties list is not present-and-empty);
and the JSON record persisted by process_document is the same whatever the
rename outcome and whether renaming was requested — the pipeline persists
the document's output regardless of rename failure. -/
theorem c6_rename_failure_nonfatal (osRename : Str → Str → Except Str Unit)
    (path : Str) (s : PySummary) (err : Str)
    (hfail : ∀ a b, osRename a b = Except.error err)
    (hp : s.parties_involved ≠ some []) :
    (rename_file osRename path s).result = Except.ok path ∧
    ∀ (env : Env) (rename : Bool) (osRename2 : Str → Str → Except Str Unit),
      (DocumentTypeDetector.process_document env osRename path rename).persisted
        = (DocumentTypeDetector.process_document env osRename2 path false).persisted := by
  constructor
  · have hname : ∃ name, rename_newname path s = Except.ok name := by
      unfold rename_newname
      cases hpi : s.parties_involved with
      | none => exact ⟨_, rfl⟩
      | some l =>
        cases l with
        | nil => exact absurd hpi hp
        | cons p r => exact ⟨_, rfl⟩
    obtain ⟨name, hname⟩ := hname
    have h1 : rename_file osRename path s =
        match osRename path (pyJoin (pyDirname path) name) with
        | Except.ok _ => ⟨Except.ok (pyJoin (pyDirname path) name), true⟩
        | Except.error _ => ⟨Except.ok path, true⟩ := by
      unfold rename_file
      rw [hname]
    rw [h1, hfail]
  · intro env rename osRename2
    rfl

/-- Witness for c6_rename_failure_nonfatal at concrete inputs (a summary with
the parties key absent, as analyze_document produces, and an always-failing
osRename). -/
theorem c6_witness :
    (rename_file (fun _ _ => Except.error ("denied").data) ("case1.pdf").data
      ⟨none, some ("Motion").data, some none⟩).result = Except.ok ("case1.pdf").data :=
  (c6_rename_failure_nonfatal (fun _ _ => Except.error ("denied").data) ("case1.pdf").data
    ⟨none, some ("Motion").data, some none⟩ ("denied").data (fun _ _ => rfl)
    (by decide)).1

/-- C9 counterexample: on the unsupported extension ".docx", extract_text of
src/document_type_detector.py would raise the typed error, yet the pipeline
that file actually runs (process_document via analyze_document, which never
calls extract_text) silently continues with empty text and persists a
record — no error is raised or propagated there. -/
theorem c9_counterexample :
    DocumentTypeDetector.extract_text c9Env ("brief.docx").data
      = Except.error ("Unsupported file type. Use .txt, .pdf, or image").data ∧
    (DocumentTypeDetector.analyze_document c9Env ("brief.docx").data).text = [] ∧
    (DocumentTypeDetector.process_document c9Env (fun _ _ => Except.ok ())
        ("brief.docx").data false).persisted.summary.document_type = ("Unknown").data :=
  ⟨by decide, by decide, by decide⟩

/-- C9 (amended): both extract_text routines raise their typed
unsupported-format ValueError on any path whose lower-cased extension lies
outside their supported set, and process_document of src/detect_doc_type.py
propagates that error to its caller; but the pipeline of
src/document_type_detector.py does not call extract_text — its
analyze_document does its own dispatch and silently continues with empty
text on an unsupported extension. -/
theorem c9_amended (env : Env) (path : Str)
    (h : extLower path ∉
      [(".txt").data, (".pdf").data, (".png").data, (".jpg").data, (".jpeg").data]) :
    DocumentTypeDetector.extract_text env path
      = Except.error ("Unsupported file type. Use .txt, .pdf, or image").data ∧
    DetectDocType.extract_text env path
      = Except.error ("Unsupported file type. Use .txt or .pdf").data ∧
    (∀ (osRename : Str → Str → Except Str Unit) (rename : Bool),
      DetectDocType.process_document env osRename path rename
        = Except.error ("Unsupported file type. Use .txt or .pdf").data) ∧
    (DocumentTypeDetector.analyze_document env path).text = [] := by
  simp only [List.mem_cons, List.not_mem_nil, or_false, not_or] at h
  obtain ⟨h1, h2, h3, h4, h5⟩ := h
  have hddt : DetectDocType.extract_text env path
      = Except.error ("Unsupported file type. Use .txt or .pdf").data := by
    simp only [DetectDocType.extract_text]
    rw [if_neg h1, if_neg h2]
  refine ⟨?_, hddt, ?_, ?_⟩
  · simp only [DocumentTypeDetector.extract_text]
    rw [if_neg h1, if_neg h2, if_neg (by simp [h3, h4, h5])]
  · intro osRename rename
    simp only [DetectDocType.process_document]
    rw [hddt]
  · simp only [DocumentTypeDetector.analyze_document]
    rw [if_neg h2, if_neg (by simp [h3, h4, h5]), if_neg h1]

/-- Witness for c9_amended at the concrete path "brief.docx". -/
theorem c9_witness :
    DetectDocType.extract_text c9Env ("brief.docx").data
      = Except.error ("Unsupported file type. Use .txt or .pdf").data :=
  (c9_amended c9Env ("brief.docx").data (by decide)).2.1

theorem dropWhile_head_not (p : Char → Bool) (l : Str) :
    ∀ c, (l.dropWhile p).head? = some c → p c = false := by
  induction l with
  | nil =>
    intro c h
    simp [List.dropWhile] at h
  | cons a t ih =>
    intro c h
    rw [List.dropWhile_cons] at h
    cases hp : p a with
    | true =>
      rw [if_pos (by rw [hp])] at h
      exact ih c h
    | false =>
      rw [if_neg (by rw [hp]; exact Bool.false_ne_true)] at h
      simp only [List.head?_cons, Option.some.injEq] at h
      rw [← h]
      exact hp

theorem dropWhile_eq_self_of_head (p : Char → Bool) (l : Str)
    (h : ∀ c, l.head? = some c → p c = false) : l.dropWhile p = l := by
  cases l with
  | nil => rfl
  | cons a t =>
    rw [List.dropWhile_cons, if_neg]
    rw [h a rfl]
    exact Bool.false_ne_true

theorem getLast?_dropWhile_of_ne (p : Char → Bool) (l : Str) (h : l.dropWhile p ≠ []) :
    (l.dropWhile p).getLast? = l.getLast? := by
  conv_rhs => rw [← List.takeWhile_append_dropWhile p l]
  rw [List.getLast?_append]
  cases hd : (l.dropWhile p).getLast? with
  | none => exact absurd (List.getLast?_eq_none_iff.mp hd) h
  | some x => rfl

theorem pyStrip_head_not (p : Char → Bool) (s : Str) :
    ∀ c, (pyStrip p s).head? = some c → p c = false := by
  intro c h
  exact dropWhile_head_not p (pyStripEnd p s) c h

theorem pyStrip_getLast_not (p : Char → Bool) (s : Str) :
    ∀ c, (pyStrip p s).getLast? = some c → p c = false := by
  intro c h
  have hne : (pyStripEnd p s).dropWhile p ≠ [] := by
    intro he
    unfold pyStrip at h
    rw [he] at h
    simp at h
  unfold pyStrip at h
  rw [getLast?_dropWhile_of_ne p _ hne] at h
  unfold pyStripEnd at h
  rw [List.getLast?_reverse] at h
  exact dropWhile_head_not p _ c h

theorem pyStrip_eq_self (p : Char → Bool) (l : Str)
    (hh : ∀ c, l.head? = some c → p c = false)
    (hl : ∀ c, l.getLast? = some c → p c = false) : pyStrip p l = l := by
  unfold pyStrip pyStripEnd
  have h1 : l.reverse.dropWhile p = l.reverse := by
    refine dropWhile_eq_self_of_head p _ ?_
    intro c h
    rw [List.head?_reverse] at h
    exact hl c h
  rw [h1, List.reverse_reverse]
  exact dropWhile_eq_self_of_head p l hh

theorem pyStrip_sublist (p : Char → Bool) (l : Str) : (pyStrip p l).Sublist l := by
  unfold pyStrip pyStripEnd
  refine List.Sublist.trans (List.dropWhile_sublist p) ?_
  have h2 : (l.reverse.dropWhile p).reverse.Sublist l.reverse.reverse :=
    List.Sublist.reverse (List.dropWhile_sublist p)
  rw [List.reverse_reverse] at h2
  exact h2

theorem chain'_dropWhile {R : Char → Char → Prop} (p : Char → Bool) (l : Str)
    (h : List.Chain' R l) : List.Chain' R (l.dropWhile p) := by
  induction l with
  | nil => simpa using h
  | cons a t ih =>
    rw [List.dropWhile_cons]
    by_cases hp : p a = true
    · rw [if_pos hp]
      exact ih h.tail
    · rw [if_neg hp]
      exact h

theorem chain'_reverse_symm {S : Char → Char → Prop} (hs : ∀ a b, S a b → S b a)
    (l : Str) (h : List.Chain' S l) : List.Chain' S l.reverse := by
  rw [List.chain'_reverse]
  refine List.Chain'.imp ?_ h
  intro a b hab
  exact hs a b hab

theorem chain'_pyStrip {S : Char → Char → Prop} (hs : ∀ a b, S a b → S b a)
    (p : Char → Bool) (l : Str) (h : List.Chain' S l) : List.Chain' S (pyStrip p l) := by
  unfold pyStrip pyStripEnd
  exact chain'_dropWhile p _ (chain'_reverse_symm hs _ (chain'_dropWhile p _
    (chain'_reverse_symm hs l h)))

theorem collapse_cons_neg (p : Char → Bool) (r d : Char) (rest : Str) (hd : p d = false) :
    collapseRuns p r (d :: rest) = d :: collapseRuns p r rest := by
  cases rest with
  | nil => simp [collapseRuns, hd]
  | cons e t => simp [collapseRuns, hd]

theorem collapse_cons_cons_pos_pos (p : Char → Bool) (r c d : Char) (rest : Str)
    (hc : p c = true) (hd : p d = true) :
    collapseRuns p r (c :: d :: rest) = collapseRuns p r (d :: rest) := by
  simp [collapseRuns, hc, hd]

theorem collapse_cons_cons_pos_neg (p : Char → Bool) (r c d : Char) (rest : Str)
    (hc : p c = true) (hd : p d = false) :
    collapseRuns p r (c :: d :: rest) = r :: collapseRuns p r (d :: rest) := by
  simp [collapseRuns, hc, hd]

theorem collapseRuns_spacedOk (p : Char → Bool) (r : Char) (l : Str) :
    SpacedOk p r (collapseRuns p r l) := by
  induction l with
  | nil => exact ⟨by simp [collapseRuns], by simp [collapseRuns]⟩
  | cons c t ih =>
    cases t with
    | nil =>
      cases hc : p c with
      | true =>
        refine ⟨?_, by simp [collapseRuns, hc]⟩
        intro x hx hpx
        simp only [collapseRuns, hc, if_true, List.mem_singleton] at hx
        exact hx
      | false =>
        refine ⟨?_, by simp [collapseRuns, hc]⟩
        intro x hx hpx
        simp only [collapseRuns, hc, Bool.false_eq_true, if_false, List.mem_singleton] at hx
        subst hx
        rw [hpx] at hc
        exact absurd hc (by simp)
    | cons d t2 =>
      cases hc : p c with
      | true =>
        cases hd : p d with
        | true =>
          rw [collapse_cons_cons_pos_pos p r c d t2 hc hd]
          exact ih
        | false =>
          rw [collapse_cons_cons_pos_neg p r c d t2 hc hd]
          obtain ⟨ihm, ihc⟩ := ih
          constructor
          · intro x hx hpx
            rcases List.mem_cons.mp hx with rfl | hx2
            · rfl
            · exact ihm x hx2 hpx
          · rw [collapse_cons_neg p r d t2 hd] at ihc ⊢
            exact List.Chain'.cons (by simp [hd]) ihc
      | false =>
        rw [collapse_cons_neg p r c (d :: t2) hc]
        obtain ⟨ihm, ihc⟩ := ih
        constructor
        · intro x hx hpx
          rcases List.mem_cons.mp hx with rfl | hx2
          · rw [hpx] at hc
            exact absurd hc (by simp)
          · exact ihm x hx2 hpx
        · refine List.chain'_cons'.mpr ⟨?_, ihc⟩
          intro y hy
          simp [hc]

theorem collapseRuns_eq_self (p : Char → Bool) (r : Char) :
    ∀ l : Str, SpacedOk p r l → collapseRuns p r l = l := by
  intro l
  induction l with
  | nil => intro h; rfl
  | cons c t ih =>
    intro h
    obtain ⟨hm, hc⟩ := h
    cases t with
    | nil =>
      cases hp : p c with
      | false => simp [collapseRuns, hp]
      | true =>
        have hcr : c = r := hm c (List.mem_cons_self c []) hp
        simp [collapseRuns, hp, hcr]
    | cons d t2 =>
      obtain ⟨hcd, hctail⟩ := List.chain'_cons.mp hc
      have htail : SpacedOk p r (d :: t2) :=
        ⟨fun x hx hpx => hm x (List.mem_cons_of_mem c hx) hpx, hctail⟩
      cases hp : p c with
      | true =>
        have hcr : c = r := hm c (List.mem_cons_self c (d :: t2)) hp
        have hd : p d = false := by
          cases hpd : p d with
          | false => rfl
          | true => exact absurd ⟨hp, hpd⟩ hcd
        rw [collapse_cons_cons_pos_neg p r c d t2 hp hd, ih htail, hcr]
      | false =>
        rw [collapse_cons_neg p r c (d :: t2) hp, ih htail]

theorem map_id_of_mem {α : Type} (f : α → α) :
    ∀ l : List α, (∀ c ∈ l, f c = c) → l.map f = l := by
  intro l
  induction l with
  | nil => intro h; rfl
  | cons a t ih =>
    intro h
    rw [List.map_cons, h a (List.mem_cons_self a t),
      ih (fun c hc => h c (List.mem_cons_of_mem a hc))]

theorem spacedOk_commaDotSpace : ∀ a b : Char,
    ¬(isPySpace a = true ∧ isPySpace b = true) → ¬(isPySpace b = true ∧ isPySpace a = true) := by
  intro a b h hc
  exact h ⟨hc.2, hc.1⟩

theorem normalize_entity_spacedOk (s : Str) :
    SpacedOk isPySpace ' ' (normalize_entity s) := by
  unfold normalize_entity
  obtain ⟨hm, hc⟩ := collapseRuns_spacedOk isPySpace ' '
    ((pyStrip isPySpace s).map replNl)
  constructor
  · intro c hcm hp
    exact hm c ((pyStrip_sublist isCommaDotSpace _).mem hcm) hp
  · exact chain'_pyStrip spacedOk_commaDotSpace isCommaDotSpace _ hc

theorem normalize_entity_idem (s : Str) :
    normalize_entity (normalize_entity s) = normalize_entity s := by
  obtain ⟨hm, hc⟩ := normalize_entity_spacedOk s
  have hhead : ∀ c, (normalize_entity s).head? = some c → isCommaDotSpace c = false :=
    pyStrip_head_not isCommaDotSpace _
  have hlast : ∀ c, (normalize_entity s).getLast? = some c → isCommaDotSpace c = false :=
    pyStrip_getLast_not isCommaDotSpace _
  have hheadws : ∀ c, (normalize_entity s).head? = some c → isPySpace c = false := by
    intro c hcm
    cases hws : isPySpace c with
    | false => rfl
    | true =>
      have hc' : c = ' ' := hm c (List.mem_of_mem_head? hcm) hws
      have h2 := hhead c hcm
      rw [hc'] at h2
      exact absurd h2 (by decide)
  have hlastws : ∀ c, (normalize_entity s).getLast? = some c → isPySpace c = false := by
    intro c hcm
    cases hws : isPySpace c with
    | false => rfl
    | true =>
      have hc' : c = ' ' := hm c (List.mem_of_mem_getLast? hcm) hws
      have h2 := hlast c hcm
      rw [hc'] at h2
      exact absurd h2 (by decide)
  have hnonl : ∀ c ∈ normalize_entity s, replNl c = c := by
    intro c hcm
    unfold replNl
    cases hnl : c == '\n' with
    | false => rw [if_neg Bool.false_ne_true]
    | true =>
      have hceq : c = '\n' := eq_of_beq hnl
      have hws : isPySpace c = true := by rw [hceq]; decide
      have hsp := hm c hcm hws
      rw [hceq] at hsp
      exact absurd hsp (by decide)
  conv_lhs => rw [normalize_entity]
  rw [pyStrip_eq_self isPySpace _ hheadws hlastws,
    map_id_of_mem replNl _ hnonl,
    collapseRuns_eq_self isPySpace ' ' _ ⟨hm, hc⟩,
    pyStrip_eq_self isCommaDotSpace _ hhead hlast]

theorem pySortedDedup_sorted (v : List Str) : List.Sorted (· ≤ ·) (pySortedDedup v) :=
  List.sorted_insertionSort (· ≤ ·) v.dedup

theorem pySortedDedup_nodup (v : List Str) : (pySortedDedup v).Nodup :=
  ((List.perm_insertionSort (· ≤ ·) v.dedup).nodup_iff).mpr (List.nodup_dedup v)

theorem pySortedDedup_mem (v : List Str) (x : Str) : x ∈ pySortedDedup v ↔ x ∈ v := by
  unfold pySortedDedup
  rw [List.mem_insertionSort, List.mem_dedup]

theorem pySortedDedup_eq_self (v : List Str) (hs : List.Sorted (· ≤ ·) v) (hn : v.Nodup) :
    pySortedDedup v = v := by
  unfold pySortedDedup
  rw [List.dedup_eq_self.mpr hn]
  exact List.Sorted.insertionSort_eq hs

/-- C8: the Entity Normalizer is idempotent — per-mention cleaning maps an
already-cleaned string to itself, and the full per-label normalization
(clean, drop empties, deduplicate, sort) is a no-op on an already-normalized
list. -/
theorem c8_normalizer_idem (s : Str) (raws : List Str) :
    normalize_entity (normalize_entity s) = normalize_entity s ∧
    normalizeLabelList (normalizeLabelList raws) = normalizeLabelList raws := by
  refine ⟨normalize_entity_idem s, ?_⟩
  have hmem : ∀ x ∈ normalizeLabelList raws, normalize_entity x = x ∧ x ≠ [] := by
    intro x hx
    unfold normalizeLabelList at hx
    rw [pySortedDedup_mem, List.mem_filter] at hx
    obtain ⟨hx1, hx2⟩ := hx
    rw [List.mem_map] at hx1
    obtain ⟨y, hy, rfl⟩ := hx1
    exact ⟨normalize_entity_idem y, by simpa using hx2⟩
  have hs : List.Sorted (· ≤ ·) (normalizeLabelList raws) :=
    pySortedDedup_sorted ((raws.map normalize_entity).filter (fun t => t ≠ []))
  have hn : (normalizeLabelList raws).Nodup :=
    pySortedDedup_nodup ((raws.map normalize_entity).filter (fun t => t ≠ []))
  conv_lhs => rw [normalizeLabelList]
  rw [map_id_of_mem normalize_entity _ (fun x hx => (hmem x hx).1),
    List.filter_eq_self.mpr (fun x hx => by simpa using (hmem x hx).2),
    pySortedDedup_eq_self _ hs hn]

theorem addEntry_values (k v : Str) : ∀ m : List (Str × List Str),
    ∀ kv ∈ addEntry m k v, ∀ s ∈ kv.2, (∃ kv2 ∈ m, s ∈ kv2.2) ∨ s = v := by
  intro m
  induction m with
  | nil =>
    intro kv hkv s hs
    simp only [addEntry, List.mem_singleton] at hkv
    subst hkv
    simp only [List.mem_singleton] at hs
    exact Or.inr hs
  | cons kv0 rest ih =>
    intro kv hkv s hs
    unfold addEntry at hkv
    cases h0 : kv0.1 == k with
    | true =>
      rw [if_pos (by rw [h0])] at hkv
      rcases List.mem_cons.mp hkv with rfl | hkv2
      · rcases List.mem_append.mp hs with hsl | hsr
        · exact Or.inl ⟨kv0, List.mem_cons_self kv0 rest, hsl⟩
        · simp only [List.mem_singleton] at hsr
          exact Or.inr hsr
      · exact Or.inl ⟨kv, List.mem_cons_of_mem kv0 hkv2, hs⟩
    | false =>
      rw [if_neg (by rw [h0]; exact Bool.false_ne_true)] at hkv
      rcases List.mem_cons.mp hkv with rfl | hkv2
      · exact Or.inl ⟨kv, List.mem_cons_self kv rest, hs⟩
      · rcases ih kv hkv2 s hs with ⟨kv2, hkv3, hs2⟩ | hs2
        · exact Or.inl ⟨kv2, List.mem_cons_of_mem kv0 hkv3, hs2⟩
        · exact Or.inr hs2

theorem detectGroup_aux (ents : List Entity) : ∀ m : List (Str × List Str),
    (∀ kv ∈ m, ∀ s ∈ kv.2, s ≠ [] ∧ normalize_entity s = s) →
    ∀ kv ∈ List.foldl DetectDocType.detectGroupStep m ents,
      ∀ s ∈ kv.2, s ≠ [] ∧ normalize_entity s = s := by
  induction ents with
  | nil =>
    intro m hm
    simpa using hm
  | cons e t ih =>
    intro m hm
    rw [List.foldl_cons]
    apply ih
    unfold DetectDocType.detectGroupStep
    by_cases hcl : normalize_entity e.text ≠ []
    · rw [if_pos hcl]
      intro kv hkv s hs
      rcases addEntry_values e.label (normalize_entity e.text) m kv hkv s hs with
        ⟨kv2, hkv2, hs2⟩ | rfl
      · exact hm kv2 hkv2 s hs2
      · exact ⟨hcl, normalize_entity_idem e.text⟩
    · rw [if_neg hcl]
      exact hm

theorem detectGroup_values (ents : List Entity) :
    ∀ kv ∈ DetectDocType.detectGroup ents, ∀ s ∈ kv.2, s ≠ [] ∧ normalize_entity s = s := by
  unfold DetectDocType.detectGroup
  exact detectGroup_aux ents [] (by simp)

/-- C7 (amended): the entity set built by process_document of
src/detect_doc_type.py — the one it hands to build_summary and persists to
JSON — satisfies the NormalizedEntitySet invariant for every annotator
output: each label maps to a lexicographically sorted, duplicate-free list of
cleaned (normalization fixed-point) strings with no empty entry.  The
pipeline of src/document_type_detector.py persists an entity set that can
violate every part of this invariant (see the counterexample). -/
theorem c7_amended (ents : List Entity) :
    NormalizedInv (DetectDocType.detectEntitySummary ents) := by
  intro kv hkv
  unfold DetectDocType.detectEntitySummary at hkv
  rw [List.mem_map] at hkv
  obtain ⟨kv0, hkv0, rfl⟩ := hkv
  refine ⟨pySortedDedup_sorted _, pySortedDedup_nodup _, ?_, ?_⟩
  · intro hmem
    rw [pySortedDedup_mem] at hmem
    exact (detectGroup_values ents kv0 hkv0 [] hmem).1 rfl
  · intro s hs
    rw [pySortedDedup_mem] at hs
    exact (detectGroup_values ents kv0 hkv0 s hs).2

/-- Witness for c7_amended at a concrete annotator output. -/
theorem c7_witness :
    NormalizedInv (DetectDocType.detectEntitySummary
      [⟨("PERSON").data, ("b").data⟩, ⟨("PERSON").data, ("a").data⟩]) :=
  c7_amended [⟨("PERSON").data, ("b").data⟩, ⟨("PERSON").data, ("a").data⟩]

/-- C7 counterexample: for a concrete document, the entity set persisted by
process_document of src/document_type_detector.py is the raw grouping
["b", "a", "b"] under PERSON — unsorted and with a duplicate — violating
the NormalizedEntitySet invariant. -/
theorem c7_counterexample :
    (DocumentTypeDetector.process_document c7Env (fun _ _ => Except.ok ())
        ("a.txt").data false).persisted.entities
      = [(("PERSON").data, [("b").data, ("a").data, ("b").data])] ∧
    ¬ NormalizedInv [(("PERSON").data, [("b").data, ("a").data, ("b").data])] := by
  refine ⟨by decide, ?_⟩
  intro hinv
  have hnd := (hinv (("PERSON").data, [("b").data, ("a").data, ("b").data])
    (List.mem_singleton.mpr rfl)).2.1
  exact absurd hnd (by decide)
